import Mathlib

/-!
Shallow embedding of `src/server.js` (a socket-based two-player
tic-tac-toe session server) and proofs about it.

JavaScript values are modelled as follows: strings are `String`;
`null`/`undefined` results are `Option.none`; JS objects used as
string-keyed dictionaries (`game.players`, the `rooms` and `players`
maps) are association lists `List (String × α)` in insertion order;
a handler that would throw an uncaught exception returns `none`.
-/

/-- Association-list lookup for the JS map/object accesses
(`rooms.get(k)`, `players.get(k)`, `obj[k]`): first binding wins. -/
def lookupKey {α : Type} (m : List (String × α)) (k : String) : Option α :=
  match m with
  | [] => none
  | (k0, v0) :: rest => if k0 = k then some v0 else lookupKey rest k

/-- `map.set(k, v)` / `obj[k] = v`: replace the binding if the key is
present, else append (JS keeps insertion order; replacing in place
keeps the original position, which is what matters for lookups). -/
def setKey {α : Type} (m : List (String × α)) (k : String) (v : α) : List (String × α) :=
  match m with
  | [] => [(k, v)]
  | (k0, v0) :: rest => if k0 = k then (k, v) :: rest else (k0, v0) :: setKey rest k v

/-- `map.delete(k)`. -/
def delKey {α : Type} (m : List (String × α)) (k : String) : List (String × α) :=
  m.filter (fun p => p.1 ≠ k)

/-- One entry of `game.players`: `{ name, symbol, isHost }`
(src/server.js lines 96-100 and 136-140). -/
structure PlayerInfo where
  name : String
  symbol : String
  isHost : Bool
deriving DecidableEq

/-- The `TicTacToeGame` class state (src/server.js lines 27-34):
`board` is an array of 9 strings (`''` = empty cell), `currentPlayer`
is `'X'` or `'O'`, `players` maps socket ids to player info,
`winner` is `null`, `'X'`, `'O'` or `'draw'`. -/
structure TicTacToeGame where
  board : List String
  currentPlayer : String
  players : List (String × PlayerInfo)
  gameActive : Bool
  winner : Option String
deriving DecidableEq

/-- `new TicTacToeGame()` (src/server.js lines 28-34). -/
def TicTacToeGame.new : TicTacToeGame :=
  { board := List.replicate 9 ""
    currentPlayer := "X"
    players := []
    gameActive := false
    winner := none }

/-- JS array read `board[i]` with an arbitrary integer index: a value
inside the array reads as `some cell`, everything else (negative index,
index past the end) reads as `undefined`, modelled `none`. -/
def boardGet (b : List String) (i : Int) : Option String :=
  if 0 ≤ i then b.get? i.toNat else none

/-- JS array write `board[i] = v`. In `makeMove` the write only happens
after `board[i] === ''` was established, so `i` is a valid index there;
out-of-range writes (which in JS would create stray properties, never
touching the 9 cells) leave the list unchanged. -/
def boardSet (b : List String) (i : Int) (v : String) : List String :=
  if 0 ≤ i then b.set i.toNat v else b

/-- The 8 winning triples of `checkWinner` (src/server.js lines 65-69). -/
def winPatterns : List (Nat × Nat × Nat) :=
  [(0, 1, 2), (3, 4, 5), (6, 7, 8),
   (0, 3, 6), (1, 4, 7), (2, 5, 8),
   (0, 4, 8), (2, 4, 6)]

/-- `checkWinner()` (src/server.js lines 64-77): some pattern `[a,b,c]`
has `board[a]` truthy (non-empty) and `board[a] === board[b]` and
`board[a] === board[c]`. All pattern indices are in range 0..8, so
reading with default `""` coincides with the JS read. -/
def checkWinner (board : List String) : Bool :=
  winPatterns.any (fun pat =>
    (board.getD pat.1 "" != "") &&
    (board.getD pat.1 "" == board.getD pat.2.1 "") &&
    (board.getD pat.1 "" == board.getD pat.2.2 ""))

/-- `currentPlayer === 'X' ? 'O' : 'X'` (src/server.js line 60). -/
def flipPlayer (p : String) : String :=
  if p = "X" then "O" else "X"

/-- `makeMove(index, playerId)` (src/server.js lines 36-62).
Returns `some (accepted, newState)`; returns `none` exactly where the
JS method would throw: `this.players[playerId]` is `undefined` (the id
is not a participant) and the code dereferences `.symbol`. The first
guard is `board[index] !== '' || !gameActive`. -/
def TicTacToeGame.makeMove (g : TicTacToeGame) (index : Int) (playerId : String) :
    Option (Bool × TicTacToeGame) :=
  if boardGet g.board index ≠ some "" ∨ g.gameActive = false then
    some (false, g)
  else
    match lookupKey g.players playerId with
    | none => none
    | some info =>
      if info.symbol ≠ g.currentPlayer then
        some (false, g)
      else
        let newBoard := boardSet g.board index info.symbol
        if checkWinner newBoard then
          some (true, { g with board := newBoard, winner := some info.symbol, gameActive := false })
        else if newBoard.all (fun cell => cell != "") then
          some (true, { g with board := newBoard, winner := some "draw", gameActive := false })
        else
          some (true, { g with board := newBoard, currentPlayer := flipPlayer g.currentPlayer })

/-- `reset()` (src/server.js lines 79-84). -/
def TicTacToeGame.reset (g : TicTacToeGame) : TicTacToeGame :=
  { g with board := List.replicate 9 ""
           currentPlayer := "X"
           gameActive := true
           winner := none }

/-- A sequence of moves each accepted by the engine: runs the attempts
in order, failing (`none`) unless every single one is accepted, and
records the marker written by each accepted move (the mover's assigned
symbol) together with the final engine state. -/
def acceptedTrace (g : TicTacToeGame) : List (Int × String) → Option (List String × TicTacToeGame)
  | [] => some ([], g)
  | (i, pid) :: rest =>
    match lookupKey g.players pid with
    | none => none
    | some info =>
      match g.makeMove i pid with
      | some (true, g1) =>
        match acceptedTrace g1 rest with
        | none => none
        | some (syms, gf) => some (info.symbol :: syms, gf)
      | _ => none

/-- A game with both participants registered and started, as produced
by `createRoom` + `joinRoom` (used for concrete test states). -/
def gameTwoPlayers : TicTacToeGame :=
  { board := List.replicate 9 ""
    currentPlayer := "X"
    players := [("a", ⟨"Alice", "X", true⟩), ("b", ⟨"Bob", "O", false⟩)]
    gameActive := true
    winner := none }

/-! ## The coordinator: socket event handlers (src/server.js lines 88-249) -/

/-- One entry of the global `players` map: `{ roomCode, playerName }`
(src/server.js line 108). -/
structure PlayerEntry where
  roomCode : String
  playerName : String
deriving DecidableEq

/-- One entry of the global `rooms` map: `{ game, players }` where
`players` is the ordered membership array of socket ids
(src/server.js lines 102-105). -/
structure RoomRecord where
  game : TicTacToeGame
  players : List String
deriving DecidableEq

/-- The process-wide mutable state: the `rooms` and `players` maps
(src/server.js lines 18-19). -/
structure ServerState where
  rooms : List (String × RoomRecord)
  players : List (String × PlayerEntry)
deriving DecidableEq

/-- Fresh process state: both maps empty. -/
def initialState : ServerState := { rooms := [], players := [] }

/-- Delivery target of an outbound emit: `socket.emit` (one socket),
`io.to(code)` (every member of the room), `socket.to(code)` (every
member of the room except the sender). -/
inductive Target where
  | toSocket (sid : String)
  | toRoom (code : String)
  | toRoomExcept (code : String) (sid : String)
deriving DecidableEq

/-- Outbound events with their payload shapes (src/server.js). -/
inductive OutEvent where
  | roomCreated (roomCode playerSymbol playerName : String)
  | playerJoined (playerName : String) (playerCount : Nat)
  | errorEvent (reason : String)
  | roomJoined (roomCode playerSymbol playerName opponentName : String)
  | opponentJoined (opponentName : String)
  | gameState (board : List String) (currentPlayer : String) (gameActive : Bool)
      (players : List (String × PlayerInfo))
  | moveMade (index : Int) (player : String) (board : List String)
      (currentPlayer : String) (gameActive : Bool)
  | gameOver (winner : Option String) (winnerName : Option String) (board : List String)
  | gameReset (board : List String) (currentPlayer : String) (gameActive : Bool)
  | playerDisconnected (playerName : String)
deriving DecidableEq

/-- The sockets a `Target` delivers to, computed from the membership
lists at emission time (transport room groups mirror `room.players`). -/
def recipients (s : ServerState) : Target → List String
  | .toSocket sid => [sid]
  | .toRoom code =>
    match lookupKey s.rooms code with
    | some room => room.players
    | none => []
  | .toRoomExcept code sid =>
    match lookupKey s.rooms code with
    | some room => room.players.filter (fun id => id ≠ sid)
    | none => []

/-- Inbound client events. `createRoom` carries the room code that
`generateRoomCode()` happened to produce (the random draw made
explicit); `disconnect` is transport-originated. -/
inductive ClientEvent where
  | createRoom (sid playerName code : String)
  | joinRoom (sid roomCode playerName : String)
  | makeMove (sid : String) (index : Int)
  | resetGame (sid : String)
  | disconnect (sid : String)
deriving DecidableEq

/-- `socket.on('createRoom')` (src/server.js lines 92-120). -/
def handleCreateRoom (s : ServerState) (sid playerName code : String) :
    ServerState × List (Target × OutEvent) :=
  let game : TicTacToeGame :=
    { TicTacToeGame.new with
        players := setKey TicTacToeGame.new.players sid ⟨playerName, "X", true⟩ }
  let s1 : ServerState :=
    { rooms := setKey s.rooms code ⟨game, [sid]⟩
      players := setKey s.players sid ⟨code, playerName⟩ }
  (s1, [(Target.toSocket sid, .roomCreated code "X" playerName),
        (Target.toRoom code, .playerJoined playerName 1)])

/-- `socket.on('joinRoom')` (src/server.js lines 123-168). Returns
`none` where the JS handler would throw (`room.game.players[room.players[0]]`
is `undefined` when the first member id is not a participant). -/
def handleJoinRoom (s : ServerState) (sid roomCode playerName : String) :
    Option (ServerState × List (Target × OutEvent)) :=
  match lookupKey s.rooms roomCode with
  | none => some (s, [(Target.toSocket sid, .errorEvent "Sala não encontrada")])
  | some room =>
    if 2 ≤ room.players.length then
      some (s, [(Target.toSocket sid, .errorEvent "Sala cheia")])
    else
      let game1 : TicTacToeGame :=
        { room.game with
            players := setKey room.game.players sid ⟨playerName, "O", false⟩
            gameActive := true }
      let members1 := room.players ++ [sid]
      match members1.head? with
      | none => none
      | some firstId =>
        match lookupKey game1.players firstId with
        | none => none
        | some hostInfo =>
          let s1 : ServerState :=
            { rooms := setKey s.rooms roomCode ⟨game1, members1⟩
              players := setKey s.players sid ⟨roomCode, playerName⟩ }
          some (s1,
            [(Target.toSocket sid, .roomJoined roomCode "O" playerName hostInfo.name),
             (Target.toRoomExcept roomCode sid, .opponentJoined playerName),
             (Target.toRoom roomCode,
              .gameState game1.board game1.currentPlayer game1.gameActive game1.players)])

/-- `socket.on('makeMove')` (src/server.js lines 171-206). `none` where
the JS handler would throw (inside `makeMove`, or resolving the winner
id / mover symbol against a `players` object missing the entry). -/
def handleMakeMove (s : ServerState) (sid : String) (index : Int) :
    Option (ServerState × List (Target × OutEvent)) :=
  match lookupKey s.players sid with
  | none => some (s, [])
  | some playerData =>
    match lookupKey s.rooms playerData.roomCode with
    | none => some (s, [])
    | some room =>
      match room.game.makeMove index sid with
      | none => none
      | some (false, _) => some (s, [])
      | some (true, game1) =>
        match lookupKey game1.players sid with
        | none => none
        | some info =>
          let s1 : ServerState :=
            { s with rooms := setKey s.rooms playerData.roomCode ⟨game1, room.players⟩ }
          let moveEmit :=
            (Target.toRoom playerData.roomCode,
             OutEvent.moveMade index info.symbol game1.board game1.currentPlayer game1.gameActive)
          if game1.gameActive then
            some (s1, [moveEmit])
          else
            if game1.winner ≠ some "draw" then
              match game1.players.find? (fun p => some p.2.symbol = game1.winner) with
              | none => none
              | some wp =>
                some (s1, [moveEmit,
                  (Target.toRoom playerData.roomCode,
                   OutEvent.gameOver game1.winner (some wp.2.name) game1.board)])
            else
              some (s1, [moveEmit,
                (Target.toRoom playerData.roomCode,
                 OutEvent.gameOver game1.winner none game1.board)])

/-- `socket.on('resetGame')` (src/server.js lines 209-223). -/
def handleResetGame (s : ServerState) (sid : String) :
    ServerState × List (Target × OutEvent) :=
  match lookupKey s.players sid with
  | none => (s, [])
  | some playerData =>
    match lookupKey s.rooms playerData.roomCode with
    | none => (s, [])
    | some room =>
      let game1 := room.game.reset
      ({ s with rooms := setKey s.rooms playerData.roomCode ⟨game1, room.players⟩ },
       [(Target.toRoom playerData.roomCode,
         .gameReset game1.board game1.currentPlayer game1.gameActive)])

/-- `socket.on('disconnect')` (src/server.js lines 226-248). The
departure notice is emitted with `socket.to(roomCode)` before the
membership is filtered. -/
def handleDisconnect (s : ServerState) (sid : String) :
    ServerState × List (Target × OutEvent) :=
  match lookupKey s.players sid with
  | none => (s, [])
  | some playerData =>
    match lookupKey s.rooms playerData.roomCode with
    | none => ({ s with players := delKey s.players sid }, [])
    | some room =>
      let ems := [(Target.toRoomExcept playerData.roomCode sid,
                   OutEvent.playerDisconnected playerData.playerName)]
      let members1 := room.players.filter (fun id => id ≠ sid)
      if members1.length = 0 then
        ({ rooms := delKey s.rooms playerData.roomCode
           players := delKey s.players sid }, ems)
      else
        ({ rooms := setKey s.rooms playerData.roomCode
              ⟨{ room.game with gameActive := false }, members1⟩
           players := delKey s.players sid }, ems)

/-- Dispatch one inbound event (the `io.on('connection')` wiring).
`none` = the handler threw an uncaught exception. -/
def step (s : ServerState) : ClientEvent → Option (ServerState × List (Target × OutEvent))
  | .createRoom sid playerName code => some (handleCreateRoom s sid playerName code)
  | .joinRoom sid roomCode playerName => handleJoinRoom s sid roomCode playerName
  | .makeMove sid index => handleMakeMove s sid index
  | .resetGame sid => some (handleResetGame s sid)
  | .disconnect sid => some (handleDisconnect s sid)

/-- Run a sequence of inbound events from a state; `none` once any
handler throws. -/
def runEvents (s : ServerState) : List ClientEvent → Option ServerState
  | [] => some s
  | e :: rest =>
    match step s e with
    | none => none
    | some (s1, _) => runEvents s1 rest

/-- Is the event a `resetGame` request? -/
def isResetEvent : ClientEvent → Bool
  | .resetGame _ => true
  | _ => false

/-- Membership/activity invariant: every registered room has non-empty
membership, and a room with at most one member has an inactive engine. -/
def membershipActiveInv (s : ServerState) : Prop :=
  ∀ code room, lookupKey s.rooms code = some room →
    room.players ≠ [] ∧ (room.players.length ≤ 1 → room.game.gameActive = false)

/-- Engine state after `makeMove 0 "a"` from `gameTwoPlayers`. -/
def gameAfterOneMove : TicTacToeGame :=
  { board := ["X", "", "", "", "", "", "", "", ""]
    currentPlayer := "O"
    players := [("a", ⟨"Alice", "X", true⟩), ("b", ⟨"Bob", "O", false⟩)]
    gameActive := true
    winner := none }

/-- Engine state after `makeMove 0 "a"` then `makeMove 3 "b"` from
`gameTwoPlayers`. -/
def gameAfterTwoMoves : TicTacToeGame :=
  { board := ["X", "", "", "O", "", "", "", "", ""]
    currentPlayer := "X"
    players := [("a", ⟨"Alice", "X", true⟩), ("b", ⟨"Bob", "O", false⟩)]
    gameActive := true
    winner := none }

/-- A room with its two members `"a"` (Alice, X, host) and `"b"`
(Bob, O), game started. -/
def roomTwo : RoomRecord :=
  { game := gameTwoPlayers
    players := ["a", "b"] }

/-- Server state holding the single full room `"ROOM01"` = `roomTwo`. -/
def serverTwo : ServerState :=
  { rooms := [("ROOM01", roomTwo)]
    players := [("a", ⟨"ROOM01", "Alice"⟩), ("b", ⟨"ROOM01", "Bob"⟩)] }

/-- The engine right after Alice created a room, before anyone joined. -/
def gameAlice : TicTacToeGame :=
  { board := List.replicate 9 ""
    currentPlayer := "X"
    players := [("a", ⟨"Alice", "X", true⟩)]
    gameActive := false
    winner := none }

/-- The one-member room right after Alice created it. -/
def roomAlice : RoomRecord :=
  { game := gameAlice
    players := ["a"] }

/-- Server state right after `createRoom` by Alice with code `ROOM01`. -/
def serverAfterCreate : ServerState :=
  { rooms := [("ROOM01", roomAlice)]
    players := [("a", ⟨"ROOM01", "Alice"⟩)] }

/-! ## Room-code generation (src/server.js lines 22-24) -/

/-- One base-36 digit as the character `Number.prototype.toString(36)`
prints it: `0`-`9` then `a`-`z`. -/
def base36Char (d : Fin 36) : Char :=
  if d.val < 10 then Char.ofNat (48 + d.val) else Char.ofNat (97 + (d.val - 10))

/-- `Math.random().toString(36)`. A double drawn from `[0, 1)` has a
finite base-36 expansion; the draw is represented by that expansion,
the list of fractional base-36 digits with no trailing zeros (the
shortest exact form, which is what `toString` prints). The printed
string is `"0"` for zero and `"0." ++ digits` otherwise. -/
def numToString36 (digits : List (Fin 36)) : String :=
  if digits = [] then "0"
  else String.mk ('0' :: '.' :: digits.map base36Char)

/-- `s.substring(a, b)`: characters from position `a` (inclusive) to
`b` (exclusive), clamped to the string length. -/
def jsSubstring (s : String) (a b : Nat) : String :=
  String.mk ((s.data.drop a).take (b - a))

/-- `c.toUpperCase()` on one ASCII character. -/
def jsUpperChar (c : Char) : Char :=
  if 97 ≤ c.toNat ∧ c.toNat ≤ 122 then Char.ofNat (c.toNat - 32) else c

/-- `s.toUpperCase()`. -/
def jsToUpperCase (s : String) : String :=
  String.mk (s.data.map jsUpperChar)

/-- `generateRoomCode()` (src/server.js lines 22-24):
`Math.random().toString(36).substring(2, 8).toUpperCase()`, as a
function of the random draw's base-36 fractional expansion. -/
def generateRoomCode (digits : List (Fin 36)) : String :=
  jsToUpperCase (jsSubstring (numToString36 digits) 2 8)

/-- A character allowed in a room code: an ASCII digit or an uppercase
ASCII letter. -/
def isUpperAlnum (c : Char) : Prop :=
  (48 ≤ c.toNat ∧ c.toNat ≤ 57) ∨ (65 ≤ c.toNat ∧ c.toNat ≤ 90)

instance (c : Char) : Decidable (isUpperAlnum c) := by
  unfold isUpperAlnum
  infer_instance

/-- Spec-side terminal condition: some of the 8 winning triples holds
three equal non-empty markers. -/
def hasWinningTriple (b : List String) : Prop :=
  ∃ pat ∈ winPatterns,
    b.getD pat.1 "" ≠ "" ∧
    b.getD pat.1 "" = b.getD pat.2.1 "" ∧
    b.getD pat.1 "" = b.getD pat.2.2 ""

instance (b : List String) : Decidable (hasWinningTriple b) := by
  unfold hasWinningTriple
  infer_instance

/-- Spec-side terminal condition: all cells are filled. -/
def boardFull (b : List String) : Prop :=
  ∀ c ∈ b, c ≠ ""

instance (b : List String) : Decidable (boardFull b) := by
  unfold boardFull
  infer_instance

/-! ## Helper lemmas -/

theorem lookupKey_setKey {α : Type} (m : List (String × α)) (k k' : String) (v : α) :
    lookupKey (setKey m k v) k' = if k = k' then some v else lookupKey m k' := by
  induction m with
  | nil => simp [setKey, lookupKey]
  | cons p rest ih =>
    obtain ⟨k0, v0⟩ := p
    by_cases h0 : k0 = k
    · subst h0
      by_cases h1 : k0 = k' <;> simp [setKey, lookupKey, h1]
    · by_cases h1 : k0 = k'
      · have hkk' : ¬ k = k' := fun h => h0 (h1.trans h.symm)
        have hk'k : ¬ k' = k := fun h => hkk' h.symm
        simp [setKey, lookupKey, h0, h1, hkk', hk'k]
      · simp [setKey, lookupKey, h0, h1, ih]

theorem lookupKey_delKey {α : Type} (m : List (String × α)) (k k' : String) :
    lookupKey (delKey m k) k' = if k = k' then none else lookupKey m k' := by
  induction m with
  | nil => simp [delKey, lookupKey]
  | cons p rest ih =>
    obtain ⟨k0, v0⟩ := p
    by_cases h0 : k0 = k
    · subst h0
      have hdrop : delKey ((k0, v0) :: rest) k0 = delKey rest k0 := by
        simp [delKey, List.filter_cons]
      rw [hdrop, ih]
      by_cases h1 : k0 = k' <;> simp [lookupKey, h1]
    · have hkeep : delKey ((k0, v0) :: rest) k = (k0, v0) :: delKey rest k := by
        simp [delKey, List.filter_cons, h0]
      rw [hkeep]
      by_cases h1 : k0 = k'
      · have hkk' : ¬ k = k' := fun h => h0 (h1.trans h.symm)
        simp [lookupKey, h1, hkk']
      · simp [lookupKey, h1, ih]

theorem flipPlayer_mem {p : String} (h : p = "X" ∨ p = "O") :
    flipPlayer p = "X" ∨ flipPlayer p = "O" := by
  rcases h with h | h <;> subst h <;> simp [flipPlayer]

theorem flipPlayer_flipPlayer {p : String} (h : p = "X" ∨ p = "O") :
    flipPlayer (flipPlayer p) = p := by
  rcases h with h | h <;> subst h <;> simp [flipPlayer]

theorem checkWinner_iff (b : List String) :
    checkWinner b = true ↔ hasWinningTriple b := by
  simp [checkWinner, hasWinningTriple, List.any_eq_true, Bool.and_eq_true,
    bne_iff_ne, beq_iff_eq, and_assoc]

theorem all_nonempty_iff (b : List String) :
    (b.all (fun cell => cell != "")) = true ↔ boardFull b := by
  simp [List.all_eq_true, boardFull, bne_iff_ne]

/-- Writing into a cell that reads as empty does not change any cell
that reads as non-empty. -/
theorem boardSet_getD_of_nonempty {b : List String} {i : Int} {v : String} {j : Nat}
    (hi : boardGet b i = some "") (hj : b.getD j "" ≠ "") :
    (boardSet b i v).getD j "" = b.getD j "" := by
  unfold boardGet at hi
  by_cases h0 : 0 ≤ i
  · rw [if_pos h0] at hi
    unfold boardSet
    rw [if_pos h0]
    have hne : i.toNat ≠ j := by
      intro heq
      apply hj
      rw [List.getD_eq_getD_get?, ← heq, hi]
      rfl
    rw [List.getD_eq_getD_get?, List.getD_eq_getD_get?, List.get?_set_ne _ _ hne]
  · rw [if_neg h0] at hi
    exact absurd hi (by simp)

/-- Reading back the cell just written: if the cell read as empty
(hence in range), after the write it reads as the written value. -/
theorem boardGet_boardSet {b : List String} {i : Int} {v : String}
    (hi : boardGet b i = some "") :
    boardGet (boardSet b i v) i = some v := by
  unfold boardGet boardSet at *
  by_cases h0 : 0 ≤ i
  · rw [if_pos h0] at hi ⊢
    rw [if_pos h0]
    have hlt : i.toNat < b.length := by
      by_contra hge
      rw [List.get?_eq_none.mpr (by omega)] at hi
      exact absurd hi (by simp)
    rw [List.get?_set_eq_of_lt _ hlt]
  · rw [if_neg h0] at hi
    exact absurd hi (by simp)

/-- `makeMove` against an inactive engine: first guard fires, move
rejected, state untouched. -/
theorem makeMove_inactive {g : TicTacToeGame} (i : Int) (pid : String)
    (h : g.gameActive = false) :
    g.makeMove i pid = some (false, g) := by
  unfold TicTacToeGame.makeMove
  rw [if_pos (Or.inr h)]

/-- Decomposition of an accepted `makeMove`: the mover is a registered
participant whose symbol is the current turn, the target cell was empty,
the engine was active, the new board is the single-cell write, the
participants are untouched, and `currentPlayer` flips exactly when the
game stays active. -/
theorem makeMove_accepted {g : TicTacToeGame} {i : Int} {pid : String} {g1 : TicTacToeGame}
    (h : g.makeMove i pid = some (true, g1)) :
    ∃ info, lookupKey g.players pid = some info ∧
      info.symbol = g.currentPlayer ∧
      boardGet g.board i = some "" ∧
      g.gameActive = true ∧
      g1.board = boardSet g.board i info.symbol ∧
      g1.players = g.players ∧
      (g1.gameActive = true →
        g1.currentPlayer = flipPlayer g.currentPlayer ∧ g1.winner = g.winner) ∧
      (g1.gameActive = false → g1.currentPlayer = g.currentPlayer) := by
  unfold TicTacToeGame.makeMove at h
  split at h
  · exact absurd (Option.some.inj h) (by simp)
  · rename_i hguard
    push_neg at hguard
    obtain ⟨hcell, hact⟩ := hguard
    match hlook : lookupKey g.players pid with
    | none => rw [hlook] at h; exact absurd h (by simp)
    | some info =>
      rw [hlook] at h
      simp only at h
      split at h
      · exact absurd (Option.some.inj h) (by simp)
      · rename_i hsym
        push_neg at hsym
        refine ⟨info, rfl, hsym, hcell, eq_true_of_ne_false hact, ?_⟩
        split at h
        · obtain h' := (Option.some.inj h)
          obtain h2 := congrArg Prod.snd h'
          simp only at h2
          subst h2
          refine ⟨rfl, rfl, ?_, ?_⟩
          · intro hfalse
            exact absurd hfalse (by simp)
          · intro _
            exact rfl
        · split at h
          · obtain h' := (Option.some.inj h)
            obtain h2 := congrArg Prod.snd h'
            simp only at h2
            subst h2
            refine ⟨rfl, rfl, ?_, ?_⟩
            · intro hfalse
              exact absurd hfalse (by simp)
            · intro _
              exact rfl
          · obtain h' := (Option.some.inj h)
            obtain h2 := congrArg Prod.snd h'
            simp only at h2
            subst h2
            refine ⟨rfl, rfl, ?_, ?_⟩
            · intro _
              exact ⟨rfl, rfl⟩
            · intro hfalse
              rw [eq_true_of_ne_false hact] at hfalse
              exact absurd hfalse (by simp)

/-- Structure of an all-accepted run: the written markers strictly
alternate starting from the current turn, and a cell that was non-empty
at the start is unchanged at the end. -/
theorem acceptedTrace_spec (ms : List (Int × String)) :
    ∀ (g : TicTacToeGame) (syms : List String) (gf : TicTacToeGame),
      (g.currentPlayer = "X" ∨ g.currentPlayer = "O") →
      acceptedTrace g ms = some (syms, gf) →
      (∀ k, (hk : k < syms.length) →
          syms.get ⟨k, hk⟩ =
            (if k % 2 = 0 then g.currentPlayer else flipPlayer g.currentPlayer)) ∧
      (∀ j : Nat, g.board.getD j "" ≠ "" → gf.board.getD j "" = g.board.getD j "") := by
  induction ms with
  | nil =>
    intro g syms gf _ h
    unfold acceptedTrace at h
    have h' := Option.some.inj h
    have hsyms : syms = [] := (congrArg Prod.fst h').symm
    have hgf : gf = g := (congrArg Prod.snd h').symm
    subst hsyms
    subst hgf
    refine ⟨?_, ?_⟩
    · intro k hk
      exact absurd hk (by simp)
    · intro j _
      rfl
  | cons m rest ih =>
    intro g syms gf hcp h
    obtain ⟨i, pid⟩ := m
    unfold acceptedTrace at h
    match hlook : lookupKey g.players pid with
    | none => rw [hlook] at h; exact absurd h (by simp)
    | some info =>
      rw [hlook] at h
      simp only at h
      match hmv : g.makeMove i pid with
      | none => rw [hmv] at h; exact absurd h (by simp)
      | some (false, gx) => rw [hmv] at h; exact absurd h (by simp)
      | some (true, g1) =>
        rw [hmv] at h
        simp only at h
        match htr : acceptedTrace g1 rest with
        | none => rw [htr] at h; exact absurd h (by simp)
        | some (syms1, gf1) =>
          rw [htr] at h
          simp only at h
          have h' := Option.some.inj h
          have hsyms : syms = info.symbol :: syms1 := (congrArg Prod.fst h').symm
          have hgf : gf = gf1 := (congrArg Prod.snd h').symm
          subst hsyms
          subst hgf
          obtain ⟨info', hlook', hsym', hcell, hact, hboard1, hplayers1, hflip, hstay⟩ :=
            makeMove_accepted hmv
          rw [hlook] at hlook'
          have hinfo : info = info' := Option.some.inj hlook'
          subst hinfo
          by_cases hact1 : g1.gameActive = true
          · obtain ⟨hcp1, hw1⟩ := hflip hact1
            have hcpm1 : g1.currentPlayer = "X" ∨ g1.currentPlayer = "O" := by
              rw [hcp1]
              exact flipPlayer_mem hcp
            obtain ⟨ihalt, ihov⟩ := ih g1 syms1 gf hcpm1 htr
            refine ⟨?_, ?_⟩
            · intro k hk
              cases k with
              | zero =>
                simpa using hsym'
              | succ n =>
                have hk' : n < syms1.length := by simpa using hk
                have hstepn := ihalt n hk'
                have hget : (info.symbol :: syms1).get ⟨n + 1, hk⟩ = syms1.get ⟨n, hk'⟩ := rfl
                rw [hget, hstepn, hcp1]
                by_cases hpar : n % 2 = 0
                · have hpar1 : (n + 1) % 2 = 1 := by omega
                  simp [hpar, hpar1]
                · have hpar1 : (n + 1) % 2 = 0 := by omega
                  simp [hpar, hpar1, flipPlayer_flipPlayer hcp]
            · intro j hj
              have hpres : g1.board.getD j "" = g.board.getD j "" := by
                rw [hboard1]
                exact boardSet_getD_of_nonempty hcell hj
              have hj1 : g1.board.getD j "" ≠ "" := by
                rw [hpres]
                exact hj
              rw [ihov j hj1, hpres]
          · have hact1' : g1.gameActive = false := by
              cases hb : g1.gameActive
              · rfl
              · exact absurd hb hact1
            have hrest : rest = [] := by
              cases hres : rest with
              | nil => rfl
              | cons m' rest' =>
                obtain ⟨i', pid'⟩ := m'
                rw [hres] at htr
                unfold acceptedTrace at htr
                match hlook2 : lookupKey g1.players pid' with
                | none => rw [hlook2] at htr; exact absurd htr (by simp)
                | some info2 =>
                  rw [hlook2] at htr
                  simp only at htr
                  rw [makeMove_inactive i' pid' hact1'] at htr
                  exact absurd htr (by simp)
            subst hrest
            unfold acceptedTrace at htr
            have h2 := Option.some.inj htr
            have hsy : syms1 = [] := (congrArg Prod.fst h2).symm
            have hg1 : gf = g1 := (congrArg Prod.snd h2).symm
            subst hsy
            subst hg1
            refine ⟨?_, ?_⟩
            · intro k hk
              cases k with
              | zero => simpa using hsym'
              | succ n => exact absurd hk (by simp)
            · intro j hj
              rw [hboard1]
              exact boardSet_getD_of_nonempty hcell hj

/-- Every non-reset event handler preserves the membership/activity
invariant. -/
theorem step_preserves_membershipActiveInv {s : ServerState} {e : ClientEvent}
    {s1 : ServerState} {ems : List (Target × OutEvent)}
    (hnr : isResetEvent e = false)
    (hinv : membershipActiveInv s)
    (hstep : step s e = some (s1, ems)) :
    membershipActiveInv s1 := by
  cases e with
  | createRoom sid name code =>
    simp only [step] at hstep
    have h' := Option.some.inj hstep
    have hs1 : s1 = (handleCreateRoom s sid name code).1 := (congrArg Prod.fst h').symm
    subst hs1
    intro c room hlook
    simp only [handleCreateRoom] at hlook
    rw [lookupKey_setKey] at hlook
    by_cases hc : code = c
    · rw [if_pos hc] at hlook
      have hroom := Option.some.inj hlook
      subst hroom
      exact ⟨by simp, fun _ => rfl⟩
    · rw [if_neg hc] at hlook
      exact hinv c room hlook
  | joinRoom sid code name =>
    simp only [step, handleJoinRoom] at hstep
    match hlookr : lookupKey s.rooms code with
    | none =>
      rw [hlookr] at hstep
      simp only at hstep
      have h' := Option.some.inj hstep
      have hs : s = s1 := congrArg Prod.fst h'
      subst hs
      exact hinv
    | some room0 =>
      rw [hlookr] at hstep
      simp only at hstep
      split at hstep
      · have h' := Option.some.inj hstep
        have hs : s = s1 := congrArg Prod.fst h'
        subst hs
        exact hinv
      · split at hstep
        · exact absurd hstep (by simp)
        · split at hstep
          · exact absurd hstep (by simp)
          · have h' := Option.some.inj hstep
            have hs1 : s1 =
                { rooms := setKey s.rooms code ⟨_, room0.players ++ [sid]⟩
                  players := setKey s.players sid ⟨code, name⟩ } := (congrArg Prod.fst h').symm
            subst hs1
            intro c room hlook
            simp only at hlook
            rw [lookupKey_setKey] at hlook
            by_cases hc : code = c
            · rw [if_pos hc] at hlook
              have hroom := Option.some.inj hlook
              subst hroom
              have h1 : 0 < room0.players.length :=
                List.length_pos.mpr (hinv code room0 hlookr).1
              refine ⟨by simp, ?_⟩
              intro hle
              simp only [List.length_append, List.length_cons, List.length_nil] at hle
              omega
            · rw [if_neg hc] at hlook
              exact hinv c room hlook
  | makeMove sid idx =>
    simp only [step, handleMakeMove] at hstep
    match h1 : lookupKey s.players sid with
    | none =>
      rw [h1] at hstep
      simp only at hstep
      have h' := Option.some.inj hstep
      have hs : s = s1 := congrArg Prod.fst h'
      subst hs
      exact hinv
    | some pd =>
      rw [h1] at hstep
      simp only at hstep
      match h2 : lookupKey s.rooms pd.roomCode with
      | none =>
        rw [h2] at hstep
        simp only at hstep
        have h' := Option.some.inj hstep
        have hs : s = s1 := congrArg Prod.fst h'
        subst hs
        exact hinv
      | some room0 =>
        rw [h2] at hstep
        simp only at hstep
        match h3 : room0.game.makeMove idx sid with
        | none =>
          rw [h3] at hstep
          exact absurd hstep (by simp)
        | some (false, gx) =>
          rw [h3] at hstep
          simp only at hstep
          have h' := Option.some.inj hstep
          have hs : s = s1 := congrArg Prod.fst h'
          subst hs
          exact hinv
        | some (true, game1) =>
          rw [h3] at hstep
          simp only at hstep
          have hinvNew : membershipActiveInv
              { s with rooms := setKey s.rooms pd.roomCode ⟨game1, room0.players⟩ } := by
            intro c room hlook
            simp only at hlook
            rw [lookupKey_setKey] at hlook
            by_cases hc : pd.roomCode = c
            · rw [if_pos hc] at hlook
              have hroom := Option.some.inj hlook
              subst hroom
              refine ⟨(hinv pd.roomCode room0 h2).1, ?_⟩
              intro hle
              exfalso
              obtain ⟨_, _, _, _, hact, _⟩ := makeMove_accepted h3
              have hundone := (hinv pd.roomCode room0 h2).2 hle
              rw [hact] at hundone
              exact absurd hundone (by simp)
            · rw [if_neg hc] at hlook
              exact hinv c room hlook
          match h4 : lookupKey game1.players sid with
          | none =>
            rw [h4] at hstep
            exact absurd hstep (by simp)
          | some info =>
            rw [h4] at hstep
            simp only at hstep
            split at hstep
            · have h' := Option.some.inj hstep
              have hs1 := (congrArg Prod.fst h').symm
              subst hs1
              exact hinvNew
            · split at hstep
              · split at hstep
                · exact absurd hstep (by simp)
                · have h' := Option.some.inj hstep
                  have hs1 := (congrArg Prod.fst h').symm
                  subst hs1
                  exact hinvNew
              · have h' := Option.some.inj hstep
                have hs1 := (congrArg Prod.fst h').symm
                subst hs1
                exact hinvNew
  | resetGame sid =>
    exact absurd hnr (by simp [isResetEvent])
  | disconnect sid =>
    simp only [step, handleDisconnect] at hstep
    match h1 : lookupKey s.players sid with
    | none =>
      rw [h1] at hstep
      simp only at hstep
      have h' := Option.some.inj hstep
      have hs : s = s1 := congrArg Prod.fst h'
      subst hs
      exact hinv
    | some pd =>
      rw [h1] at hstep
      simp only at hstep
      match h2 : lookupKey s.rooms pd.roomCode with
      | none =>
        rw [h2] at hstep
        simp only at hstep
        have h' := Option.some.inj hstep
        have hs1 : s1 = { s with players := delKey s.players sid } :=
          (congrArg Prod.fst h').symm
        subst hs1
        intro c room hlook
        exact hinv c room hlook
      | some room0 =>
        rw [h2] at hstep
        simp only at hstep
        split at hstep
        · have h' := Option.some.inj hstep
          have hs1 : s1 =
              { rooms := delKey s.rooms pd.roomCode
                players := delKey s.players sid } := (congrArg Prod.fst h').symm
          subst hs1
          intro c room hlook
          simp only at hlook
          rw [lookupKey_delKey] at hlook
          by_cases hc : pd.roomCode = c
          · rw [if_pos hc] at hlook
            exact absurd hlook (by simp)
          · rw [if_neg hc] at hlook
            exact hinv c room hlook
        · rename_i hlen
          have h' := Option.some.inj hstep
          have hs1 := (congrArg Prod.fst h').symm
          subst hs1
          intro c room hlook
          simp only at hlook
          rw [lookupKey_setKey] at hlook
          by_cases hc : pd.roomCode = c
          · rw [if_pos hc] at hlook
            have hroom := Option.some.inj hlook
            subst hroom
            refine ⟨?_, fun _ => rfl⟩
            intro hnil
            exact hlen (congrArg List.length hnil)
          · rw [if_neg hc] at hlook
            exact hinv c room hlook

/-- `runEvents` over reset-free event lists preserves the
membership/activity invariant. -/
theorem runEvents_preserves_membershipActiveInv (es : List ClientEvent) :
    ∀ {s s1 : ServerState}, membershipActiveInv s →
      (∀ e ∈ es, isResetEvent e = false) →
      runEvents s es = some s1 → membershipActiveInv s1 := by
  induction es with
  | nil =>
    intro s s1 hinv _ h
    unfold runEvents at h
    have hs : s = s1 := Option.some.inj h
    subst hs
    exact hinv
  | cons e rest ih =>
    intro s s1 hinv hnr h
    unfold runEvents at h
    match hst : step s e with
    | none => rw [hst] at h; exact absurd h (by simp)
    | some (s2, ems) =>
      rw [hst] at h
      simp only at h
      exact ih
        (step_preserves_membershipActiveInv (hnr e (by simp)) hinv hst)
        (fun e' he' => hnr e' (by simp [he'])) h

/-! ## Claims -/

/-- Claim C1, counterexample to the claim as stated: from a started
two-player engine, the five moves X0, O3, X1, O4, X2 are all accepted
(the fifth completes the top row and wins for X), yet `turn` is `"X"`
both before and after the fifth accepted move — `turn` does not
alternate on a terminal accepted move. -/
theorem claim_C1_counterexample :
    ((acceptedTrace gameTwoPlayers [(0, "a"), (3, "b"), (1, "a"), (4, "b")]).map
      (fun p => p.2.currentPlayer) = some "X") ∧
    ((acceptedTrace gameTwoPlayers [(0, "a"), (3, "b"), (1, "a"), (4, "b"), (2, "a")]).map
      (fun p => (p.1, p.2.currentPlayer, p.2.gameActive, p.2.winner)) =
      some (["X", "O", "X", "O", "X"], "X", false, some "X")) := by
  exact ⟨by decide, by decide⟩

/-- Claim C1 (amended): over any run of moves all accepted by the Rule
Engine from a state whose turn is one of the two markers (a fresh or
freshly reset engine has turn `"X"`), the markers written strictly
alternate starting from the initial turn — so from marker A on a fresh
or reset engine — and a cell that is non-empty is never overwritten;
moreover, on every single accepted move of any engine, the `turn`
field flips exactly when the move is non-terminal (the engine stays
active) and is left unchanged by a terminal accepted move (the engine
becomes inactive). -/
theorem claim_C1_amended (g : TicTacToeGame) (ms : List (Int × String))
    (syms : List String) (gf : TicTacToeGame)
    (hcp : g.currentPlayer = "X" ∨ g.currentPlayer = "O")
    (h : acceptedTrace g ms = some (syms, gf)) :
    ((∀ k, (hk : k < syms.length) →
        syms.get ⟨k, hk⟩ =
          (if k % 2 = 0 then g.currentPlayer else flipPlayer g.currentPlayer)) ∧
     (∀ j : Nat, g.board.getD j "" ≠ "" → gf.board.getD j "" = g.board.getD j "")) ∧
    (∀ (g0 g1 : TicTacToeGame) (i : Int) (pid : String),
      g0.makeMove i pid = some (true, g1) →
      (g1.gameActive = true → g1.currentPlayer = flipPlayer g0.currentPlayer) ∧
      (g1.gameActive = false → g1.currentPlayer = g0.currentPlayer)) := by
  refine ⟨acceptedTrace_spec ms g syms gf hcp h, ?_⟩
  intro g0 g1 i pid hmv
  obtain ⟨info, _, _, _, _, _, _, hflip, hstay⟩ := makeMove_accepted hmv
  exact ⟨fun ha => (hflip ha).1, hstay⟩

/-- Witness for the amended claim C1 at a concrete two-move run: the
second written marker is `"O"`, and the first accepted move (a
non-terminal one) flipped the turn from `"X"` to `"O"`. -/
theorem claim_C1_amended_witness :
    (["X", "O"] : List String).get ⟨1, by decide⟩ = "O" ∧
    gameAfterOneMove.currentPlayer = flipPlayer gameTwoPlayers.currentPlayer := by
  have h := claim_C1_amended gameTwoPlayers [(0, "a"), (3, "b")] ["X", "O"]
    gameAfterTwoMoves (Or.inl rfl) (by decide)
  have h1 := h.1.1 1 (by decide)
  have h2 := (h.2 gameTwoPlayers gameAfterOneMove 0 "a" (by decide)).1 (by decide)
  exact ⟨by rw [h1]; decide, h2⟩

/-- Claim C2: when `makeMove` accepts, it writes the mover's assigned
marker into the cell, and the terminal conditions hold in order: a
winning triple in the new board (the 8 patterns) yields that marker's
win with the engine deactivated — regardless of whether the board is
also full, so a ninth-cell winning move is a win, not a draw; otherwise
a full board yields a draw with the engine deactivated; otherwise the
turn flips and the engine stays active with the outcome unchanged. -/
theorem claim_C2 (g : TicTacToeGame) (i : Int) (pid : String) (g1 : TicTacToeGame)
    (h : g.makeMove i pid = some (true, g1)) :
    ∃ info, lookupKey g.players pid = some info ∧
      info.symbol = g.currentPlayer ∧
      g1.board = boardSet g.board i info.symbol ∧
      boardGet g1.board i = some info.symbol ∧
      (hasWinningTriple g1.board →
        g1.winner = some info.symbol ∧ g1.gameActive = false) ∧
      (¬hasWinningTriple g1.board → boardFull g1.board →
        g1.winner = some "draw" ∧ g1.gameActive = false) ∧
      (¬hasWinningTriple g1.board → ¬boardFull g1.board →
        g1.currentPlayer = flipPlayer g.currentPlayer ∧ g1.gameActive = true ∧
        g1.winner = g.winner) := by
  unfold TicTacToeGame.makeMove at h
  split at h
  · exact absurd (Option.some.inj h) (by simp)
  · rename_i hguard
    push_neg at hguard
    obtain ⟨hcell, hact⟩ := hguard
    match hlook : lookupKey g.players pid with
    | none => rw [hlook] at h; exact absurd h (by simp)
    | some info =>
      rw [hlook] at h
      simp only at h
      split at h
      · exact absurd (Option.some.inj h) (by simp)
      · rename_i hsym
        push_neg at hsym
        refine ⟨info, rfl, hsym, ?_⟩
        split at h
        · rename_i hwin
          have hg1 := congrArg Prod.snd (Option.some.inj h)
          simp only at hg1
          subst hg1
          refine ⟨rfl, boardGet_boardSet hcell, ?_, ?_, ?_⟩
          · intro _
            exact ⟨rfl, rfl⟩
          · intro hnw _
            exact absurd ((checkWinner_iff _).mp hwin) hnw
          · intro hnw _
            exact absurd ((checkWinner_iff _).mp hwin) hnw
        · rename_i hnwin
          split at h
          · rename_i hfull
            have hg1 := congrArg Prod.snd (Option.some.inj h)
            simp only at hg1
            subst hg1
            refine ⟨rfl, boardGet_boardSet hcell, ?_, ?_, ?_⟩
            · intro hw
              exact absurd ((checkWinner_iff _).mpr hw) hnwin
            · intro _ _
              exact ⟨rfl, rfl⟩
            · intro _ hnf
              exact absurd ((all_nonempty_iff _).mp hfull) hnf
          · rename_i hnfull
            have hg1 := congrArg Prod.snd (Option.some.inj h)
            simp only at hg1
            subst hg1
            refine ⟨rfl, boardGet_boardSet hcell, ?_, ?_, ?_⟩
            · intro hw
              exact absurd ((checkWinner_iff _).mpr hw) hnwin
            · intro _ hf
              exact absurd ((all_nonempty_iff _).mpr hf) hnfull
            · intro _ _
              exact ⟨rfl, eq_true_of_ne_false hact, rfl⟩

/-- Witness for claim C2 at the concrete accepted move X at cell 0. -/
theorem claim_C2_witness :
    ∃ info, lookupKey gameTwoPlayers.players "a" = some info ∧
      info.symbol = gameTwoPlayers.currentPlayer ∧
      gameAfterOneMove.board = boardSet gameTwoPlayers.board 0 info.symbol ∧
      boardGet gameAfterOneMove.board 0 = some info.symbol ∧
      (hasWinningTriple gameAfterOneMove.board →
        gameAfterOneMove.winner = some info.symbol ∧ gameAfterOneMove.gameActive = false) ∧
      (¬hasWinningTriple gameAfterOneMove.board → boardFull gameAfterOneMove.board →
        gameAfterOneMove.winner = some "draw" ∧ gameAfterOneMove.gameActive = false) ∧
      (¬hasWinningTriple gameAfterOneMove.board → ¬boardFull gameAfterOneMove.board →
        gameAfterOneMove.currentPlayer = flipPlayer gameTwoPlayers.currentPlayer ∧
        gameAfterOneMove.gameActive = true ∧
        gameAfterOneMove.winner = gameTwoPlayers.winner) :=
  claim_C2 gameTwoPlayers 0 "a" gameAfterOneMove (by decide)

/-- Claim C3: each failing precondition — inactive engine, non-empty
target cell, or the connection's assigned marker differing from the
current turn — makes `makeMove` return a rejection carrying the engine
state completely unchanged; the inactive-engine case needs nothing of
the other inputs. -/
theorem claim_C3 (g : TicTacToeGame) (i : Int) (pid : String)
    (h : g.gameActive = false ∨
         (∃ c, boardGet g.board i = some c ∧ c ≠ "") ∨
         (∃ info, lookupKey g.players pid = some info ∧ info.symbol ≠ g.currentPlayer)) :
    g.makeMove i pid = some (false, g) := by
  unfold TicTacToeGame.makeMove
  rcases h with h | ⟨c, hc, hcne⟩ | ⟨info, hinfo, hsym⟩
  · rw [if_pos (Or.inr h)]
  · rw [if_pos (Or.inl (by rw [hc]; intro he; exact hcne (Option.some.inj he)))]
  · by_cases hguard : boardGet g.board i ≠ some "" ∨ g.gameActive = false
    · rw [if_pos hguard]
    · rw [if_neg hguard, hinfo]
      simp only
      rw [if_pos hsym]

/-- Witness for claim C3: a fresh engine is inactive, so any move is
rejected without touching the state. -/
theorem claim_C3_witness :
    TicTacToeGame.new.makeMove 0 "z" = some (false, TicTacToeGame.new) :=
  claim_C3 TicTacToeGame.new 0 "z" (Or.inl rfl)

/-- Claim C4, counterexample to the claim as stated: in a started
two-player engine, a move by a connection that is not a participant,
on an empty cell, makes `makeMove` throw (reading `.symbol` of
`undefined`), modelled as `none` — an exception is reachable. -/
theorem claim_C4_counterexample :
    gameTwoPlayers.makeMove 0 "ghost" = none := by decide

/-- Claim C4 (amended): `makeMove` neither throws nor corrupts state
whenever the connection is a registered participant — and also, for
arbitrary connections, whenever the target cell is not empty or the
engine is inactive: it returns a result, and a rejection leaves the
state unchanged. Only the remaining case (unknown connection, empty
target cell, active engine) throws, as the counterexample shows. -/
theorem claim_C4_amended (g : TicTacToeGame) (i : Int) (pid : String)
    (h : (∃ info, lookupKey g.players pid = some info) ∨
         boardGet g.board i ≠ some "" ∨ g.gameActive = false) :
    ∃ r g1, g.makeMove i pid = some (r, g1) ∧ (r = false → g1 = g) := by
  unfold TicTacToeGame.makeMove
  by_cases hguard : boardGet g.board i ≠ some "" ∨ g.gameActive = false
  · exact ⟨false, g, by rw [if_pos hguard], fun _ => rfl⟩
  · rw [if_neg hguard]
    rcases h with ⟨info, hinfo⟩ | h2 | h3
    · rw [hinfo]
      simp only
      by_cases hsym : info.symbol ≠ g.currentPlayer
      · exact ⟨false, g, by rw [if_pos hsym], fun _ => rfl⟩
      · rw [if_neg hsym]
        by_cases hwin : checkWinner (boardSet g.board i info.symbol) = true
        · rw [if_pos hwin]
          exact ⟨true, _, rfl, fun hf => absurd hf (by simp)⟩
        · rw [if_neg hwin]
          by_cases hfull : (boardSet g.board i info.symbol).all (fun cell => cell != "") = true
          · rw [if_pos hfull]
            exact ⟨true, _, rfl, fun hf => absurd hf (by simp)⟩
          · rw [if_neg hfull]
            exact ⟨true, _, rfl, fun hf => absurd hf (by simp)⟩
    · exact absurd (Or.inl h2) hguard
    · exact absurd (Or.inr h3) hguard

/-- Witness for the amended claim C4: Bob (a registered participant)
moving out of turn gets a rejection with the state unchanged. -/
theorem claim_C4_amended_witness :
    ∃ r g1, gameTwoPlayers.makeMove 0 "b" = some (r, g1) ∧
      (r = false → g1 = gameTwoPlayers) :=
  claim_C4_amended gameTwoPlayers 0 "b" (Or.inl ⟨⟨"Bob", "O", false⟩, by decide⟩)

/-- Claim C5, counterexample to the claim as stated: Alice creates a
room (one member, engine inactive) and immediately sends `resetGame`;
the handler resets the engine, which sets `active = true` — so a
one-member room with an active engine is reachable. -/
theorem claim_C5_counterexample :
    (runEvents initialState
      [.createRoom "a" "Alice" "ROOM01", .resetGame "a"]).map
      (fun s => (lookupKey s.rooms "ROOM01").map
        (fun r => (r.players.length, r.game.gameActive))) =
    some (some (1, true)) := by decide

/-- Claim C5 (amended): in every state reachable by a sequence of
coordinator events containing no `resetGame`, every registered room
with at most one member has an inactive engine (`active = false`);
a `resetGame` request, however, sets `active = true` regardless of
membership, as the counterexample shows. -/
theorem claim_C5_amended (es : List ClientEvent) (s : ServerState)
    (hnr : ∀ e ∈ es, isResetEvent e = false)
    (hrun : runEvents initialState es = some s) :
    ∀ code room, lookupKey s.rooms code = some room →
      room.players.length ≤ 1 → room.game.gameActive = false := by
  have hinv : membershipActiveInv s :=
    runEvents_preserves_membershipActiveInv es
      (by intro c room h; exact absurd h (by simp [initialState, lookupKey]))
      hnr hrun
  intro code room hlook hlen
  exact (hinv code room hlook).2 hlen

/-- Witness for the amended claim C5: right after a bare `createRoom`
the one-member room is inactive. -/
theorem claim_C5_amended_witness :
    roomAlice.game.gameActive = false :=
  claim_C5_amended [ClientEvent.createRoom "a" "Alice" "ROOM01"] serverAfterCreate
    (by decide) (by decide) "ROOM01" roomAlice (by decide) (by decide)

/-- Claim C6, counterexample to the claim as stated: the join-error
reason strings emitted by the code are the Portuguese
`'Sala não encontrada'` and `'Sala cheia'`, not `"room not found"` and
`"room full"`. -/
theorem claim_C6_counterexample :
    step initialState (.joinRoom "s1" "ZZZZ00" "Bob") =
      some (initialState,
        [(Target.toSocket "s1", OutEvent.errorEvent "Sala não encontrada")]) ∧
    ("Sala não encontrada" : String) ≠ "room not found" ∧
    ("Sala cheia" : String) ≠ "room full" := by
  exact ⟨by decide, by decide, by decide⟩

/-- Claim C6 (amended): joining a nonexistent room emits a single
`error` event, reason `'Sala não encontrada'`, to the requester only,
with the whole server state unchanged and processing stopped; joining
a room that already has 2 members emits a single `error`, reason
`'Sala cheia'`, to the requester only, again with no state change. -/
theorem claim_C6_amended (s : ServerState) (sid code name : String) :
    (lookupKey s.rooms code = none →
      step s (.joinRoom sid code name) =
        some (s, [(Target.toSocket sid, OutEvent.errorEvent "Sala não encontrada")])) ∧
    (∀ room, lookupKey s.rooms code = some room → 2 ≤ room.players.length →
      step s (.joinRoom sid code name) =
        some (s, [(Target.toSocket sid, OutEvent.errorEvent "Sala cheia")])) := by
  constructor
  · intro hnone
    simp only [step, handleJoinRoom]
    rw [hnone]
  · intro room hroom hfull
    simp only [step, handleJoinRoom]
    rw [hroom]
    simp only
    rw [if_pos hfull]

/-- Witness for the amended claim C6: a join against the empty registry
and a join against a full concrete room. -/
theorem claim_C6_amended_witness :
    step initialState (.joinRoom "s1" "ZZZZ00" "Bob") =
      some (initialState,
        [(Target.toSocket "s1", OutEvent.errorEvent "Sala não encontrada")]) ∧
    step serverTwo (.joinRoom "s3" "ROOM01" "Eve") =
      some (serverTwo, [(Target.toSocket "s3", OutEvent.errorEvent "Sala cheia")]) :=
  ⟨(claim_C6_amended initialState "s1" "ZZZZ00" "Bob").1 (by decide),
   (claim_C6_amended serverTwo "s3" "ROOM01" "Eve").2 roomTwo (by decide) (by decide)⟩

/-- Claim C7: a disconnect of a connection bound to an existing room
removes it from the membership; if the membership becomes empty the
room record is destroyed (lookups of its code find nothing), otherwise
the room remains with its engine deactivated; and the single departure
notice carries the departed player's display name and is delivered
exactly to the remaining members, never to the departing connection. -/
theorem claim_C7 (s : ServerState) (sid : String) (pd : PlayerEntry) (room : RoomRecord)
    (hpd : lookupKey s.players sid = some pd)
    (hroom : lookupKey s.rooms pd.roomCode = some room) :
    ∃ s1, handleDisconnect s sid =
        (s1, [(Target.toRoomExcept pd.roomCode sid,
               OutEvent.playerDisconnected pd.playerName)]) ∧
      (room.players.filter (fun id => id ≠ sid) = [] →
        lookupKey s1.rooms pd.roomCode = none) ∧
      (room.players.filter (fun id => id ≠ sid) ≠ [] →
        lookupKey s1.rooms pd.roomCode =
          some ⟨{ room.game with gameActive := false },
                room.players.filter (fun id => id ≠ sid)⟩) ∧
      recipients s (Target.toRoomExcept pd.roomCode sid) =
        room.players.filter (fun id => id ≠ sid) ∧
      sid ∉ recipients s (Target.toRoomExcept pd.roomCode sid) := by
  have hrec : recipients s (Target.toRoomExcept pd.roomCode sid) =
      room.players.filter (fun id => id ≠ sid) := by
    simp only [recipients]
    rw [hroom]
  have hnotin : sid ∉ recipients s (Target.toRoomExcept pd.roomCode sid) := by
    rw [hrec]
    simp [List.mem_filter]
  unfold handleDisconnect
  rw [hpd]
  simp only
  rw [hroom]
  simp only
  by_cases hempty : (room.players.filter (fun id => id ≠ sid)).length = 0
  · rw [if_pos hempty]
    refine ⟨_, rfl, ?_, ?_, hrec, hnotin⟩
    · intro _
      simp only
      rw [lookupKey_delKey, if_pos rfl]
    · intro hne
      exact absurd (List.length_eq_zero.mp hempty) hne
  · rw [if_neg hempty]
    refine ⟨_, rfl, ?_, ?_, hrec, hnotin⟩
    · intro hnil
      exact absurd (congrArg List.length hnil) hempty
    · intro _
      simp only
      rw [lookupKey_setKey, if_pos rfl]

/-- Witness for claim C7: Bob disconnects from the two-member room;
Alice remains, the room survives deactivated, and only Alice gets the
notice. -/
theorem claim_C7_witness :
    ∃ s1, handleDisconnect serverTwo "b" =
        (s1, [(Target.toRoomExcept "ROOM01" "b",
               OutEvent.playerDisconnected "Bob")]) ∧
      (roomTwo.players.filter (fun id => id ≠ "b") = [] →
        lookupKey s1.rooms "ROOM01" = none) ∧
      (roomTwo.players.filter (fun id => id ≠ "b") ≠ [] →
        lookupKey s1.rooms "ROOM01" =
          some ⟨{ roomTwo.game with gameActive := false },
                roomTwo.players.filter (fun id => id ≠ "b")⟩) ∧
      recipients serverTwo (Target.toRoomExcept "ROOM01" "b") =
        roomTwo.players.filter (fun id => id ≠ "b") ∧
      "b" ∉ recipients serverTwo (Target.toRoomExcept "ROOM01" "b") :=
  claim_C7 serverTwo "b" ⟨"ROOM01", "Bob"⟩ roomTwo (by decide) (by decide)

/-- Claim C8: `reset()` clears the board to 9 empty cells, sets the
turn to marker A (`"X"`), reactivates the engine, clears the outcome,
and leaves the participants untouched, for every prior state. -/
theorem claim_C8 (g : TicTacToeGame) :
    g.reset.board = List.replicate 9 "" ∧
    g.reset.currentPlayer = "X" ∧
    g.reset.gameActive = true ∧
    g.reset.winner = none ∧
    g.reset.players = g.players :=
  ⟨rfl, rfl, rfl, rfl, rfl⟩

/-- Claim C9, counterexample to the claim as stated: the random draw
0.5 prints as `"0.i"` in base 36, so
`Math.random().toString(36).substring(2, 8).toUpperCase()` yields the
1-character code `"I"`, not a 6-character one. -/
theorem claim_C9_counterexample :
    generateRoomCode [18] = "I" ∧ (generateRoomCode [18]).length ≠ 6 := by
  exact ⟨by decide, by decide⟩

/-- Claim C9 (amended): the room code always consists of uppercase
alphanumeric characters and has length at most 6; it has length exactly
6 whenever the draw has at least 6 significant base-36 fractional
digits (almost every draw), but shorter codes — down to the empty
string for draw 0 — occur for draws with short expansions. -/
theorem claim_C9_amended (digits : List (Fin 36)) :
    (generateRoomCode digits).length ≤ 6 ∧
    (∀ c ∈ (generateRoomCode digits).data, isUpperAlnum c) ∧
    (6 ≤ digits.length → (generateRoomCode digits).length = 6) := by
  have hchar : ∀ d : Fin 36, isUpperAlnum (jsUpperChar (base36Char d)) := by decide
  cases digits with
  | nil => exact ⟨by decide, by decide, by decide⟩
  | cons d0 ds =>
    have hstr : generateRoomCode (d0 :: ds) =
        String.mk ((((d0 :: ds).map base36Char).take 6).map jsUpperChar) := by
      simp [generateRoomCode, numToString36, jsSubstring, jsToUpperCase]
    rw [hstr]
    refine ⟨?_, ?_, ?_⟩
    · simp [String.length]
    · intro c hc
      simp only [String.mk, List.mem_map] at hc
      obtain ⟨a, ha, hac⟩ := hc
      have : a ∈ (d0 :: ds).map base36Char := List.take_subset 6 _ ha
      obtain ⟨d, _, had⟩ := List.mem_map.mp this
      rw [← hac, ← had]
      exact hchar d
    · intro h6
      simp only [List.length_cons] at h6
      simp [String.length]
      omega

/-- Witness for the amended claim C9 at a 6-digit draw. -/
theorem claim_C9_amended_witness :
    (generateRoomCode [10, 0, 35, 9, 9, 1]).length = 6 :=
  (claim_C9_amended [10, 0, 35, 9, 9, 1]).2.2 (by decide)

/-- Claim C10: an out-of-range cell index (negative or above 8) reads
as `undefined`, which fails the `!== ''` guard exactly like an occupied
cell, so the move is rejected with the state unchanged and no write
happens anywhere. -/
theorem claim_C10 (g : TicTacToeGame) (i : Int) (pid : String)
    (hlen : g.board.length = 9) (hrange : i < 0 ∨ 8 < i) :
    g.makeMove i pid = some (false, g) := by
  have hget : boardGet g.board i = none := by
    unfold boardGet
    rcases hrange with h | h
    · rw [if_neg (by omega : ¬ 0 ≤ i)]
    · rw [if_pos (by omega : (0 : Int) ≤ i)]
      apply List.get?_eq_none.mpr
      rw [hlen]
      omega
  unfold TicTacToeGame.makeMove
  rw [if_pos (Or.inl (by rw [hget]; simp))]

/-- Witness for claim C10 at the just-out-of-range index 9. -/
theorem claim_C10_witness :
    gameTwoPlayers.makeMove 9 "a" = some (false, gameTwoPlayers) :=
  claim_C10 gameTwoPlayers 9 "a" (by decide) (Or.inr (by decide))
